import Mathlib

/-!
Shallow embedding of the genome interpreter of shteou/go-al (src/ga.go).

The repository holds two variants of the same program. The canonical variant
interprets genomes over the 9-symbol alphabet A..I; the earlier, simplest
variant interprets genomes over the 4-symbol alphabet A..D. Both expose
`Evaluate`, a bounded (1000-step) interpreter loop over an ephemeral organism
state, returning `1.0 - children/1000.0`.

Modelling decisions:
- A Go `Genome` is a `[]string` of one-character strings (the program builds it
  with `strings.Split(s, "")` and dispatches on `gene[0]`); we model it as
  `List Char`.
- Go `float64` fields (`Energy`, `Threat`) are modelled as `ℚ`; every numeric
  operation the claims exercise is field arithmetic, `max`, and comparisons.
- `math.Pow(float64(size)/2.0, 1.05)` (the Grow cost, symbol `E`) has an
  irrational exponent and no exact rational value, so the evaluator takes the
  function `x ↦ x^1.05` as a parameter `p : ℚ → ℚ`; every theorem below holds
  for an arbitrary `p`.
- `G[index]` in Go panics when `index ≥ len(G)` (in particular on the empty
  genome). The interpreter step therefore returns an explicit `fault` outcome
  on out-of-range access, and `Evaluate` returns `Option ℚ`, `none` standing
  for the runtime panic.
-/

/-- Organism state of the canonical 9-symbol variant (`GenomeState` in ga.go).
`Children` and `Size` are Go `uint` (ℕ); `Energy` and `Threat` are `float64`
modelled as ℚ. -/
structure GenomeState where
  children : ℕ
  energy : ℚ
  foundFood : Bool
  size : ℕ
  threat : ℚ
deriving DecidableEq

/-- Fresh organism state built at the top of `Evaluate`:
`GenomeState{Children: 0, Energy: 10.0, FoundFood: false, Size: 1, Threat: 0}`. -/
def initState : GenomeState :=
  { children := 0, energy := 10, foundFood := false, size := 1, threat := 0 }

/-- The 9-symbol alphabet, `corpus = strings.Split("ABCDEFGHI", "")`. -/
def corpus : List Char := ['A', 'B', 'C', 'D', 'E', 'F', 'G', 'H', 'I']

/-- One dispatch of the `switch gene[0]` statement of the canonical `Evaluate`
(ga.go lines 45-92). Returns the updated organism state together with the
(unmodulated) instruction pointer: the skip instructions `H` and `I` perform a
bare `index++` inside their branch. `p` models `fun x => math.Pow x 1.05`,
used only by the Grow instruction `E`. The default branch of the switch only
logs. -/
def execGene (p : ℚ → ℚ) (gene : Char) (g : GenomeState) (index : ℕ) :
    GenomeState × ℕ :=
  match gene with
  | 'A' => (g, index)
  | 'B' =>
    (if g.energy > 25 then
      { g with children := g.children + 1, energy := g.energy - 25 }
    else
      { g with energy := g.energy - 25 }, index)
  | 'C' => ({ g with foundFood := true }, index)
  | 'D' =>
    (if g.foundFood then
      { g with energy := max (g.energy + 10 + (g.size : ℚ)) ((g.size : ℚ) + 15) }
    else g, index)
  | 'E' =>
    ({ g with energy := g.energy - p ((g.size : ℚ) / 2), size := g.size + 1 }, index)
  | 'F' =>
    ({ g with energy := g.energy - 5 / ((g.size : ℚ) / 2),
              threat := max (g.threat - 5) 0 }, index)
  | 'G' =>
    ({ g with energy := g.energy - 1 * ((g.size : ℚ) / 2),
              threat := g.threat - 5 }, index)
  | 'H' => (g, if g.threat < 5 then index + 1 else index)
  | 'I' => (g, if g.energy < 30 then index + 1 else index)
  | _ => (g, index)

/-- Food decay (ga.go lines 94-97): lose track of food unless the executed gene
is `C`, `A`, `H` or `I`. -/
def foodDecay (gene : Char) (g : GenomeState) : GenomeState :=
  if gene ≠ 'C' ∧ gene ≠ 'A' ∧ gene ≠ 'H' ∧ gene ≠ 'I' then
    { g with foundFood := false }
  else g

/-- Metabolic decay (ga.go lines 99-108): unless the executed gene is `A`, `H`
or `I`, deduct `(1 + size/40)^2` energy, increment threat, and deduct the
threat as extra energy once it exceeds `20 + size`. -/
def metabolicDecay (gene : Char) (g : GenomeState) : GenomeState :=
  if gene ≠ 'A' ∧ gene ≠ 'H' ∧ gene ≠ 'I' then
    let e := g.energy - (1 + (g.size : ℚ) / 40) ^ 2
    let t := g.threat + 1
    if t > 20 + (g.size : ℚ) then { g with energy := e - t, threat := t }
    else { g with energy := e, threat := t }
  else g

/-- The full state change of one loop iteration executing `gene`: dispatch,
then food decay, then metabolic decay (the dispatch's state component does not
depend on the instruction pointer, see `execGene_fst_index`). -/
def stepState (p : ℚ → ℚ) (gene : Char) (g : GenomeState) : GenomeState :=
  metabolicDecay gene (foodDecay gene (execGene p gene g 0).1)

/-- Outcome of one loop iteration: `fault` models the Go panic of an
out-of-range `G[index]`, `dead` the `break` on `energy <= 0`, and `next` the
normal continuation with the wrapped instruction pointer. -/
inductive StepRes (σ : Type) where
  | fault : StepRes σ
  | dead : σ → StepRes σ
  | next : ℕ → σ → StepRes σ
deriving DecidableEq

/-- One iteration of the canonical `Evaluate` loop body (ga.go lines 43-118):
fetch `G[index]`, dispatch, apply both decays, check death, and wrap the
pointer with `index = (index + 1) % len(G)`. -/
def stepIter (p : ℚ → ℚ) (G : List Char) (index : ℕ) (g : GenomeState) :
    StepRes GenomeState :=
  match G[index]? with
  | none => .fault
  | some gene =>
    let r := execGene p gene g index
    let g2 := metabolicDecay gene (foodDecay gene r.1)
    if g2.energy ≤ 0 then .dead g2
    else .next ((r.2 + 1) % G.length) g2

/-- The canonical `Evaluate` loop with explicit fuel (the source runs
`for i := 0; i < 1000; i++`). `none` models a panic. -/
def evalLoop (p : ℚ → ℚ) (G : List Char) : ℕ → ℕ → GenomeState → Option GenomeState
  | 0, _, g => some g
  | fuel + 1, index, g =>
    match stepIter p G index g with
    | .fault => none
    | .dead g2 => some g2
    | .next idx2 g2 => evalLoop p G fuel idx2 g2

/-- Final organism state of the canonical `Evaluate` (1000 steps from
`initState` at pointer 0). -/
def evalState (p : ℚ → ℚ) (G : List Char) : Option GenomeState :=
  evalLoop p G 1000 0 initState

/-- The canonical `Evaluate` (ga.go line 120): fitness
`1.0 - children/1000.0` of the final state. -/
def Evaluate (p : ℚ → ℚ) (G : List Char) : Option ℚ :=
  (evalState p G).map (fun g => 1 - (g.children : ℚ) / 1000)

/-- A concrete stand-in for the Grow-cost function parameter, used to
instantiate theorems at closed inputs (no claim below depends on its values:
the Grow instruction `E` never executes in the concrete runs used). -/
def powStub : ℚ → ℚ := fun x => x

/-- Organism state of the earlier, simplest variant (`GenomeState` of the
second ga.go file): only children, energy and the food flag. -/
structure GenomeState2 where
  children : ℕ
  energy : ℚ
  foundFood : Bool
deriving DecidableEq

/-- Fresh organism state of the simplest variant:
`GenomeState{Children: 0, Energy: 10.0, FoundFood: false}`. -/
def initState2 : GenomeState2 :=
  { children := 0, energy := 10, foundFood := false }

/-- The 4-symbol alphabet of the simplest variant,
`corpus = strings.Split("ABCD", "")`. -/
def corpus2 : List Char := ['A', 'B', 'C', 'D']

/-- One dispatch of the simplest variant's `switch gene[0]` (second file,
lines 281-302): Spawn Child uses threshold and cost 5.0, Eat Food adds a flat
10.0 with no floor. -/
def execGene2 (gene : Char) (g : GenomeState2) : GenomeState2 :=
  match gene with
  | 'A' => g
  | 'B' =>
    if g.energy > 5 then
      { g with children := g.children + 1, energy := g.energy - 5 }
    else
      { g with energy := g.energy - 5 }
  | 'C' => { g with foundFood := true }
  | 'D' => if g.foundFood then { g with energy := g.energy + 10 } else g
  | _ => g

/-- Post-dispatch bookkeeping of the simplest variant (second file, lines
304-308): lose track of food unless the gene is `C`, then deduct a flat 1.0
energy on every step, no-ops included. -/
def stepPost2 (gene : Char) (g : GenomeState2) : GenomeState2 :=
  let g1 := if gene ≠ 'C' then { g with foundFood := false } else g
  { g1 with energy := g1.energy - 1 }

/-- One iteration of the simplest variant's `Evaluate` loop body (second file,
lines 279-318). -/
def stepIter2 (G : List Char) (index : ℕ) (g : GenomeState2) :
    StepRes GenomeState2 :=
  match G[index]? with
  | none => .fault
  | some gene =>
    let g2 := stepPost2 gene (execGene2 gene g)
    if g2.energy ≤ 0 then .dead g2
    else .next ((index + 1) % G.length) g2

/-- The simplest variant's `Evaluate` loop with explicit fuel. -/
def evalLoop2 (G : List Char) : ℕ → ℕ → GenomeState2 → Option GenomeState2
  | 0, _, g => some g
  | fuel + 1, index, g =>
    match stepIter2 G index g with
    | .fault => none
    | .dead g2 => some g2
    | .next idx2 g2 => evalLoop2 G fuel idx2 g2

/-- Final organism state of the simplest variant's `Evaluate`. -/
def evalState2 (G : List Char) : Option GenomeState2 :=
  evalLoop2 G 1000 0 initState2

/-- The simplest variant's `Evaluate` (second file, line 320): fitness
`1.0 - children/1000.0` of the final state. -/
def Evaluate2 (G : List Char) : Option ℚ :=
  (evalState2 G).map (fun g => 1 - (g.children : ℚ) / 1000)

/-! ### Helper lemmas: single dispatch -/

theorem execGene_fst_index (p : ℚ → ℚ) (gene : Char) (g : GenomeState)
    (i j : ℕ) : (execGene p gene g i).1 = (execGene p gene g j).1 := by
  unfold execGene
  split <;> (try split) <;> simp_all

theorem execGene_children_le (p : ℚ → ℚ) (gene : Char) (g : GenomeState)
    (i : ℕ) : (execGene p gene g i).1.children ≤ g.children + 1 := by
  unfold execGene
  split <;> (try split) <;> simp

theorem execGene_children_eq (p : ℚ → ℚ) (gene : Char) (g : GenomeState)
    (i : ℕ) (h : gene ≠ 'B') : (execGene p gene g i).1.children = g.children := by
  unfold execGene
  split <;> (try split) <;> simp_all

theorem foodDecay_children (gene : Char) (g : GenomeState) :
    (foodDecay gene g).children = g.children := by
  unfold foodDecay
  split <;> rfl

theorem metabolicDecay_children (gene : Char) (g : GenomeState) :
    (metabolicDecay gene g).children = g.children := by
  unfold metabolicDecay
  split
  · dsimp only
    split <;> rfl
  · rfl

theorem stepped_children_le (p : ℚ → ℚ) (gene : Char) (g : GenomeState)
    (i : ℕ) :
    (metabolicDecay gene (foodDecay gene (execGene p gene g i).1)).children ≤
      g.children + 1 := by
  rw [metabolicDecay_children, foodDecay_children]
  exact execGene_children_le p gene g i

theorem stepped_children_eq (p : ℚ → ℚ) (gene : Char) (g : GenomeState)
    (i : ℕ) (h : gene ≠ 'B') :
    (metabolicDecay gene (foodDecay gene (execGene p gene g i).1)).children =
      g.children := by
  rw [metabolicDecay_children, foodDecay_children]
  exact execGene_children_eq p gene g i h

theorem execGene2_children_le (gene : Char) (g : GenomeState2) :
    (execGene2 gene g).children ≤ g.children + 1 := by
  unfold execGene2
  split <;> (try split) <;> simp

theorem execGene2_children_eq (gene : Char) (g : GenomeState2)
    (h : gene ≠ 'B') : (execGene2 gene g).children = g.children := by
  unfold execGene2
  split <;> (try split) <;> simp_all

theorem stepPost2_children (gene : Char) (g : GenomeState2) :
    (stepPost2 gene g).children = g.children := by
  unfold stepPost2
  split <;> rfl

/-! ### Helper lemmas: one loop iteration -/

theorem stepIter_ne_fault (p : ℚ → ℚ) (G : List Char) (index : ℕ)
    (g : GenomeState) (hidx : index < G.length) :
    stepIter p G index g ≠ StepRes.fault := by
  unfold stepIter
  rw [List.getElem?_eq_getElem hidx]
  dsimp only
  split <;> simp

theorem stepIter_dead_spec (p : ℚ → ℚ) (G : List Char) (index : ℕ)
    (g g2 : GenomeState) (h : stepIter p G index g = StepRes.dead g2) :
    ∃ gene, G[index]? = some gene ∧
      g2 = metabolicDecay gene (foodDecay gene (execGene p gene g index).1) := by
  unfold stepIter at h
  cases hget : G[index]? with
  | none =>
    rw [hget] at h
    exact absurd h (by simp)
  | some gene =>
    rw [hget] at h
    dsimp only at h
    split at h
    · injection h with h2
      exact ⟨gene, rfl, h2.symm⟩
    · exact absurd h (by simp)

theorem stepIter_next_spec (p : ℚ → ℚ) (G : List Char) (index : ℕ)
    (g : GenomeState) (idx2 : ℕ) (g2 : GenomeState)
    (h : stepIter p G index g = StepRes.next idx2 g2) :
    ∃ gene, G[index]? = some gene ∧
      g2 = metabolicDecay gene (foodDecay gene (execGene p gene g index).1) ∧
      idx2 = ((execGene p gene g index).2 + 1) % G.length := by
  unfold stepIter at h
  cases hget : G[index]? with
  | none =>
    rw [hget] at h
    exact absurd h (by simp)
  | some gene =>
    rw [hget] at h
    dsimp only at h
    split at h
    · exact absurd h (by simp)
    · injection h with h1 h2
      exact ⟨gene, rfl, h2.symm, h1.symm⟩

theorem stepIter2_ne_fault (G : List Char) (index : ℕ) (g : GenomeState2)
    (hidx : index < G.length) : stepIter2 G index g ≠ StepRes.fault := by
  unfold stepIter2
  rw [List.getElem?_eq_getElem hidx]
  dsimp only
  split <;> simp

theorem stepIter2_dead_spec (G : List Char) (index : ℕ) (g g2 : GenomeState2)
    (h : stepIter2 G index g = StepRes.dead g2) :
    ∃ gene, G[index]? = some gene ∧ g2 = stepPost2 gene (execGene2 gene g) := by
  unfold stepIter2 at h
  cases hget : G[index]? with
  | none =>
    rw [hget] at h
    exact absurd h (by simp)
  | some gene =>
    rw [hget] at h
    dsimp only at h
    split at h
    · injection h with h2
      exact ⟨gene, rfl, h2.symm⟩
    · exact absurd h (by simp)

theorem stepIter2_next_spec (G : List Char) (index : ℕ) (g : GenomeState2)
    (idx2 : ℕ) (g2 : GenomeState2)
    (h : stepIter2 G index g = StepRes.next idx2 g2) :
    ∃ gene, G[index]? = some gene ∧ g2 = stepPost2 gene (execGene2 gene g) ∧
      idx2 = (index + 1) % G.length := by
  unfold stepIter2 at h
  cases hget : G[index]? with
  | none =>
    rw [hget] at h
    exact absurd h (by simp)
  | some gene =>
    rw [hget] at h
    dsimp only at h
    split at h
    · exact absurd h (by simp)
    · injection h with h1 h2
      exact ⟨gene, rfl, h2.symm, h1.symm⟩

/-! ### Helper lemmas: whole-loop invariants -/

theorem evalLoop_children_le (p : ℚ → ℚ) (G : List Char) :
    ∀ fuel index g g', evalLoop p G fuel index g = some g' →
      g'.children ≤ g.children + fuel := by
  intro fuel
  induction fuel with
  | zero =>
    intro index g g' h
    simp only [evalLoop, Option.some.injEq] at h
    subst h
    exact Nat.le_refl _
  | succ n ih =>
    intro index g g' h
    rw [evalLoop] at h
    cases hstep : stepIter p G index g with
    | fault =>
      rw [hstep] at h
      exact absurd h (by simp)
    | dead g2 =>
      rw [hstep] at h
      simp only [Option.some.injEq] at h
      obtain ⟨gene, -, hg2⟩ := stepIter_dead_spec p G index g g2 hstep
      have h1 : g2.children ≤ g.children + 1 :=
        hg2 ▸ stepped_children_le p gene g index
      have h3 : g2.children = g'.children := by rw [h]
      omega
    | next idx2 g2 =>
      rw [hstep] at h
      obtain ⟨gene, -, hg2, -⟩ := stepIter_next_spec p G index g idx2 g2 hstep
      have h1 : g2.children ≤ g.children + 1 :=
        hg2 ▸ stepped_children_le p gene g index
      have h2 := ih idx2 g2 g' h
      omega

theorem evalLoop_children_const (p : ℚ → ℚ) (G : List Char)
    (hB : ∀ c ∈ G, c ≠ 'B') :
    ∀ fuel index g g', evalLoop p G fuel index g = some g' →
      g'.children = g.children := by
  intro fuel
  induction fuel with
  | zero =>
    intro index g g' h
    simp only [evalLoop, Option.some.injEq] at h
    subst h
    rfl
  | succ n ih =>
    intro index g g' h
    rw [evalLoop] at h
    cases hstep : stepIter p G index g with
    | fault =>
      rw [hstep] at h
      exact absurd h (by simp)
    | dead g2 =>
      rw [hstep] at h
      simp only [Option.some.injEq] at h
      obtain ⟨gene, hget, hg2⟩ := stepIter_dead_spec p G index g g2 hstep
      have hmem : gene ∈ G := List.getElem?_mem hget
      rw [← h, hg2]
      exact stepped_children_eq p gene g index (hB gene hmem)
    | next idx2 g2 =>
      rw [hstep] at h
      obtain ⟨gene, hget, hg2, -⟩ := stepIter_next_spec p G index g idx2 g2 hstep
      have hmem : gene ∈ G := List.getElem?_mem hget
      have h1 : g2.children = g.children :=
        hg2 ▸ stepped_children_eq p gene g index (hB gene hmem)
      rw [ih idx2 g2 g' h, h1]

theorem evalLoop_total (p : ℚ → ℚ) (G : List Char) (hG : 0 < G.length) :
    ∀ fuel index g, index < G.length →
      ∃ g', evalLoop p G fuel index g = some g' := by
  intro fuel
  induction fuel with
  | zero =>
    intro index g _
    exact ⟨g, rfl⟩
  | succ n ih =>
    intro index g hidx
    cases hstep : stepIter p G index g with
    | fault => exact absurd hstep (stepIter_ne_fault p G index g hidx)
    | dead g2 =>
      refine ⟨g2, ?_⟩
      rw [evalLoop, hstep]
    | next idx2 g2 =>
      obtain ⟨gene, -, -, hidx2⟩ := stepIter_next_spec p G index g idx2 g2 hstep
      have hlt : idx2 < G.length := hidx2 ▸ Nat.mod_lt _ hG
      obtain ⟨g', hg'⟩ := ih idx2 g2 hlt
      refine ⟨g', ?_⟩
      rw [evalLoop, hstep]
      exact hg'

theorem evalLoop2_children_const (G : List Char) (hB : ∀ c ∈ G, c ≠ 'B') :
    ∀ fuel index g g', evalLoop2 G fuel index g = some g' →
      g'.children = g.children := by
  intro fuel
  induction fuel with
  | zero =>
    intro index g g' h
    simp only [evalLoop2, Option.some.injEq] at h
    subst h
    rfl
  | succ n ih =>
    intro index g g' h
    rw [evalLoop2] at h
    cases hstep : stepIter2 G index g with
    | fault =>
      rw [hstep] at h
      exact absurd h (by simp)
    | dead g2 =>
      rw [hstep] at h
      simp only [Option.some.injEq] at h
      obtain ⟨gene, hget, hg2⟩ := stepIter2_dead_spec G index g g2 hstep
      have hmem : gene ∈ G := List.getElem?_mem hget
      rw [← h, hg2, stepPost2_children, execGene2_children_eq gene g (hB gene hmem)]
    | next idx2 g2 =>
      rw [hstep] at h
      obtain ⟨gene, hget, hg2, -⟩ := stepIter2_next_spec G index g idx2 g2 hstep
      have hmem : gene ∈ G := List.getElem?_mem hget
      have h1 : g2.children = g.children := by
        rw [hg2, stepPost2_children, execGene2_children_eq gene g (hB gene hmem)]
      rw [ih idx2 g2 g' h, h1]

theorem evalLoop2_total (G : List Char) (hG : 0 < G.length) :
    ∀ fuel index g, index < G.length →
      ∃ g', evalLoop2 G fuel index g = some g' := by
  intro fuel
  induction fuel with
  | zero =>
    intro index g _
    exact ⟨g, rfl⟩
  | succ n ih =>
    intro index g hidx
    cases hstep : stepIter2 G index g with
    | fault => exact absurd hstep (stepIter2_ne_fault G index g hidx)
    | dead g2 =>
      refine ⟨g2, ?_⟩
      rw [evalLoop2, hstep]
    | next idx2 g2 =>
      obtain ⟨gene, -, -, hidx2⟩ := stepIter2_next_spec G index g idx2 g2 hstep
      have hlt : idx2 < G.length := hidx2 ▸ Nat.mod_lt _ hG
      obtain ⟨g', hg'⟩ := ih idx2 g2 hlt
      refine ⟨g', ?_⟩
      rw [evalLoop2, hstep]
      exact hg'

/-! ### Helper lemmas: concrete first steps -/

theorem stepIter_A (p : ℚ → ℚ) (G : List Char) (index : ℕ)
    (hget : G[index]? = some 'A') :
    stepIter p G index initState =
      StepRes.next ((index + 1) % G.length) initState := by
  unfold stepIter
  rw [hget]
  rfl

theorem evalLoop_allA (p : ℚ → ℚ) (G : List Char) (hA : ∀ c ∈ G, c = 'A') :
    ∀ fuel index, index < G.length →
      evalLoop p G fuel index initState = some initState := by
  intro fuel
  induction fuel with
  | zero =>
    intro index _
    rfl
  | succ n ih =>
    intro index hidx
    have hget : G[index]? = some 'A' := by
      rw [List.getElem?_eq_getElem hidx]
      exact congrArg some (hA _ (List.getElem_mem hidx))
    rw [evalLoop, stepIter_A p G index hget]
    exact ih _ (Nat.mod_lt _ (Nat.lt_of_le_of_lt (Nat.zero_le _) hidx))

theorem stepIter_B_initState (p : ℚ → ℚ) (G : List Char) (index : ℕ)
    (hget : G[index]? = some 'B') :
    stepIter p G index initState =
      StepRes.dead { children := 0, energy := 10 - 25 - (1 + (1 : ℚ) / 40) ^ 2,
                     foundFood := false, size := 1, threat := 1 } := by
  unfold stepIter
  rw [hget]
  have hBc : ¬ 'B' = 'A' ∧ ¬ 'B' = 'H' ∧ ¬ 'B' = 'I' := by decide
  norm_num [execGene, foodDecay, metabolicDecay, initState, hBc]

theorem execGene_C (p : ℚ → ℚ) (g : GenomeState) (i : ℕ) :
    execGene p 'C' g i = ({ g with foundFood := true }, i) := rfl

theorem foodDecay_C (g : GenomeState) : foodDecay 'C' g = g := rfl

theorem foodDecay_D (g : GenomeState) :
    foodDecay 'D' g = { g with foundFood := false } := rfl

theorem metabolicDecay_foundFood (gene : Char) (g : GenomeState) :
    (metabolicDecay gene g).foundFood = g.foundFood := by
  unfold metabolicDecay
  split
  · dsimp only
    split <;> rfl
  · rfl

theorem execGene_D_found (p : ℚ → ℚ) (g : GenomeState) (i : ℕ)
    (h : g.foundFood = true) :
    (execGene p 'D' g i).1 =
      { g with energy := max (g.energy + 10 + (g.size : ℚ)) ((g.size : ℚ) + 15) } := by
  unfold execGene
  simp [h]

theorem execGene_D_not_found (p : ℚ → ℚ) (g : GenomeState) (i : ℕ)
    (h : g.foundFood = false) : execGene p 'D' g i = (g, i) := by
  unfold execGene
  simp [h]

theorem eat_gain (p : ℚ → ℚ) (g : GenomeState) (i : ℕ)
    (h : g.foundFood = true) :
    g.energy < (execGene p 'D' g i).1.energy := by
  rw [execGene_D_found p g i h]
  have h0 : (0 : ℚ) ≤ (g.size : ℚ) := Nat.cast_nonneg _
  have h1 : g.energy < g.energy + 10 + (g.size : ℚ) := by linarith
  exact lt_of_lt_of_le h1 (le_max_left _ _)

/-! ### Claims -/

/-- C1: on every genome for which `Evaluate` completes, the final children
count satisfies `0 ≤ children ≤ 1000` (it starts at 0, each of the at most
1000 executed steps adds at most one child), the returned fitness is exactly
`1 - children/1000`, and hence `fitness ≤ 1`. -/
theorem fitness_children_bounds (p : ℚ → ℚ) (G : List Char) (f : ℚ)
    (h : Evaluate p G = some f) :
    ∃ g, evalState p G = some g ∧ g.children ≤ 1000 ∧
      f = 1 - (g.children : ℚ) / 1000 ∧ f ≤ 1 := by
  unfold Evaluate at h
  cases hG : evalState p G with
  | none =>
    rw [hG] at h
    exact absurd h (by simp)
  | some g =>
    rw [hG] at h
    simp only [Option.map_some', Option.some.injEq] at h
    have hG2 := hG
    unfold evalState at hG2
    have hch : g.children ≤ 1000 := by
      have hle := evalLoop_children_le p G 1000 0 initState g hG2
      simpa [initState] using hle
    refine ⟨g, rfl, hch, h.symm, ?_⟩
    rw [← h]
    have h0 : (0 : ℚ) ≤ (g.children : ℚ) / 1000 := by positivity
    linarith

/-- Witness for C1 at the concrete genome "B". -/
theorem fitness_children_bounds_wit :
    Evaluate powStub ['B'] = some 1 ∧
    ∃ g, evalState powStub ['B'] = some g ∧ g.children ≤ 1000 ∧
      (1 : ℚ) = 1 - (g.children : ℚ) / 1000 ∧ (1 : ℚ) ≤ 1 := by
  have h : Evaluate powStub ['B'] = some 1 := by with_unfolding_all decide
  exact ⟨h, fitness_children_bounds powStub ['B'] 1 h⟩

/-- C2 (amended): on every nonempty all-no-op genome, `Evaluate` completes
with `children = 0` and fitness exactly 1.0, but the organism never dies:
the no-op is passive, so the metabolic decay block is skipped on every step
and energy stays exactly 10 for the whole 1000-step budget. -/
theorem noop_genome_evaluation (p : ℚ → ℚ) (G : List Char) (hne : G ≠ [])
    (hA : ∀ c ∈ G, c = 'A') :
    evalState p G = some initState ∧ initState.energy = 10 ∧
    Evaluate p G = some 1 := by
  have hlen : 0 < G.length := List.length_pos.mpr hne
  have h1 : evalState p G = some initState := evalLoop_allA p G hA 1000 0 hlen
  refine ⟨h1, rfl, ?_⟩
  unfold Evaluate
  rw [h1]
  simp [initState]

/-- Witness for C2's amended statement at the genome "A". -/
theorem noop_genome_evaluation_wit :
    (['A'] : List Char) ≠ [] ∧ (∀ c ∈ (['A'] : List Char), c = 'A') ∧
    (evalState powStub ['A'] = some initState ∧ initState.energy = 10 ∧
     Evaluate powStub ['A'] = some 1) :=
  ⟨by decide, by decide, noop_genome_evaluation powStub ['A'] (by decide) (by decide)⟩

/-- C2 counterexample: evaluating the all-no-op genome "A" ends with the
state unchanged — final energy is 10, not `≤ 0`, so metabolic decay never
applies and the organism does not die at any iteration, contradicting the
claimed closed-form death step. -/
theorem noop_genome_cex :
    evalState powStub ['A'] = some initState ∧ ¬ initState.energy ≤ 0 := by
  constructor
  · exact evalLoop_allA powStub ['A'] (by decide) 1000 0 (by decide)
  · decide

/-- C3: whenever a skip instruction's guard holds (`H` with `threat < 5`, or
`I` with `energy < 30`) on a live organism, the iteration ends at pointer
`(index + 2) % len G` — the bare `index++` inside the switch followed by the
wrapped `index+1` equals an advance-by-2-mod-length rule; in particular on
genome "HB" from the fresh organism the pointer consumed by iteration 2 is
position 0, not 1. -/
theorem skip_advances_by_two (p : ℚ → ℚ) (G : List Char) (index : ℕ)
    (g : GenomeState)
    (h : (G[index]? = some 'H' ∧ g.threat < 5) ∨
         (G[index]? = some 'I' ∧ g.energy < 30))
    (he : 0 < g.energy) :
    stepIter p G index g = StepRes.next ((index + 2) % G.length) g ∧
    stepIter powStub ['H', 'B'] 0 initState = StepRes.next 0 initState := by
  refine ⟨?_, by decide⟩
  have hne : ¬ g.energy ≤ 0 := not_le.mpr he
  have key : ∀ gene, G[index]? = some gene →
      execGene p gene g index = (g, index + 1) →
      foodDecay gene g = g → metabolicDecay gene g = g →
      stepIter p G index g = StepRes.next ((index + 2) % G.length) g := by
    intro gene hget hexec hfood hmet
    unfold stepIter
    rw [hget]
    dsimp only
    rw [hexec]
    dsimp only
    rw [hfood, hmet, if_neg hne]
  rcases h with ⟨hget, hcond⟩ | ⟨hget, hcond⟩
  · exact key 'H' hget (by unfold execGene; simp [hcond]) rfl rfl
  · exact key 'I' hget (by unfold execGene; simp [hcond]) rfl rfl

/-- Witness for C3 at the genome "HB", pointer 0, fresh organism. -/
theorem skip_advances_by_two_wit :
    (((['H', 'B'] : List Char)[0]? = some 'H' ∧ initState.threat < 5) ∨
     ((['H', 'B'] : List Char)[0]? = some 'I' ∧ initState.energy < 30)) ∧
    0 < initState.energy ∧
    (stepIter powStub ['H', 'B'] 0 initState =
        StepRes.next ((0 + 2) % (['H', 'B'] : List Char).length) initState ∧
     stepIter powStub ['H', 'B'] 0 initState = StepRes.next 0 initState) :=
  ⟨Or.inl ⟨by decide, by decide⟩, by decide,
   skip_advances_by_two powStub ['H', 'B'] 0 initState
     (Or.inl ⟨by decide, by decide⟩) (by decide)⟩

set_option maxRecDepth 10000 in
/-- C4 counterexample: the retained symbols do not have identical semantics in
the two variants. On genome "B" the canonical variant never reproduces
(threshold 25 > initial energy 10, fitness 1.0) while the 4-symbol variant
reproduces once (threshold 5 < 10, fitness 0.999), so the fitnesses differ. -/
theorem subset_variant_cex :
    Evaluate powStub ['B'] = some 1 ∧ Evaluate2 ['B'] = some (999 / 1000) ∧
    Evaluate powStub ['B'] ≠ Evaluate2 ['B'] := by
  refine ⟨?_, ?_, ?_⟩ <;> with_unfolding_all decide

/-- C4 (amended): the two variants return the same fitness on every nonempty
genome over the Reproduce-free retained subset {A, C, D}: no `B` means the
children count never moves, so both return fitness exactly 1.0. The full
subset claim fails because Reproduce's threshold/cost (5 vs 25), Eat-food's
gain and floor, and the decay rules differ between the variants. -/
theorem subset_variant_agree_noB (p : ℚ → ℚ) (G : List Char) (hne : G ≠ [])
    (hsub : ∀ c ∈ G, c = 'A' ∨ c = 'C' ∨ c = 'D') :
    Evaluate p G = some 1 ∧ Evaluate2 G = some 1 := by
  have hlen : 0 < G.length := List.length_pos.mpr hne
  have hB : ∀ c ∈ G, c ≠ 'B' := by
    intro c hc
    rcases hsub c hc with h | h | h <;> simp [h]
  constructor
  · obtain ⟨g', hg'⟩ := evalLoop_total p G hlen 1000 0 initState hlen
    have hc := evalLoop_children_const p G hB 1000 0 initState g' hg'
    unfold Evaluate evalState
    rw [hg']
    simp [hc, initState]
  · obtain ⟨g', hg'⟩ := evalLoop2_total G hlen 1000 0 initState2 hlen
    have hc := evalLoop2_children_const G hB 1000 0 initState2 g' hg'
    unfold Evaluate2 evalState2
    rw [hg']
    simp [hc, initState2]

/-- Witness for C4's amended statement at the genome "A". -/
theorem subset_variant_agree_noB_wit :
    (['A'] : List Char) ≠ [] ∧
    (∀ c ∈ (['A'] : List Char), c = 'A' ∨ c = 'C' ∨ c = 'D') ∧
    (Evaluate powStub ['A'] = some 1 ∧ Evaluate2 ['A'] = some 1) :=
  ⟨by decide, by decide, subset_variant_agree_noB powStub ['A'] (by decide) (by decide)⟩

/-- C5: a successful Eat-food dispatch (`found_food` true) sets energy to
`max (energy + 10 + size) (size + 15)`; the max can only raise the already
increased value (a floor, not a cap), so the energy after the dispatch is at
least `energy + 10 + size` and strictly greater than before. -/
theorem eat_food_energy_floor (p : ℚ → ℚ) (g : GenomeState) (i : ℕ)
    (h : g.foundFood = true) :
    (execGene p 'D' g i).1.energy =
      max (g.energy + 10 + (g.size : ℚ)) ((g.size : ℚ) + 15) ∧
    g.energy + 10 + (g.size : ℚ) ≤ (execGene p 'D' g i).1.energy ∧
    g.energy < (execGene p 'D' g i).1.energy := by
  refine ⟨?_, ?_, eat_gain p g i h⟩
  · rw [execGene_D_found p g i h]
  · rw [execGene_D_found p g i h]
    exact le_max_left _ _

/-- A fresh organism that has just located food, used to instantiate C5. -/
def fedState : GenomeState := { initState with foundFood := true }

/-- Witness for C5 at a fresh organism with the food flag set. -/
theorem eat_food_energy_floor_wit :
    fedState.foundFood = true ∧
    ((execGene powStub 'D' fedState 0).1.energy =
        max (fedState.energy + 10 + (fedState.size : ℚ)) ((fedState.size : ℚ) + 15) ∧
     fedState.energy + 10 + (fedState.size : ℚ) ≤
        (execGene powStub 'D' fedState 0).1.energy ∧
     fedState.energy < (execGene powStub 'D' fedState 0).1.energy) :=
  ⟨rfl, eat_food_energy_floor powStub fedState 0 rfl⟩

theorem stepState_C_foundFood (p : ℚ → ℚ) (g : GenomeState) :
    (stepState p 'C' g).foundFood = true := by
  unfold stepState
  rw [execGene_C p g 0]
  dsimp only
  rw [foodDecay_C, metabolicDecay_foundFood]

theorem stepState_D_foundFood (p : ℚ → ℚ) (g : GenomeState) :
    (stepState p 'D' g).foundFood = false := by
  unfold stepState
  rw [metabolicDecay_foundFood, foodDecay_D]

/-- C6: after a full Locate-food step the food flag is set; an Eat-food
dispatch then strictly gains energy; but the full Eat-food step resets the
flag, so a second consecutive Eat-food dispatch takes the failed branch and
changes nothing — in particular it gains no energy. -/
theorem second_eat_food_fails (p : ℚ → ℚ) (g : GenomeState) :
    (stepState p 'C' g).foundFood = true ∧
    (stepState p 'C' g).energy <
      (execGene p 'D' (stepState p 'C' g) 0).1.energy ∧
    (stepState p 'D' (stepState p 'C' g)).foundFood = false ∧
    execGene p 'D' (stepState p 'D' (stepState p 'C' g)) 0 =
      (stepState p 'D' (stepState p 'C' g), 0) :=
  ⟨stepState_C_foundFood p g,
   eat_gain p (stepState p 'C' g) 0 (stepState_C_foundFood p g),
   stepState_D_foundFood p (stepState p 'C' g),
   execGene_D_not_found p (stepState p 'D' (stepState p 'C' g)) 0
     (stepState_D_foundFood p (stepState p 'C' g))⟩

/-- C7: every nonempty all-Reproduce genome ends with `children ≤ 1`. From
the initial energy 10 the very first `B` step finds `energy > 25` false, so
no child is ever spawned; the unconditional `energy -= 25` plus metabolic
decay kills the organism on iteration 0. -/
theorem all_reproduce_children_le_one (p : ℚ → ℚ) (G : List Char)
    (hne : G ≠ []) (hB : ∀ c ∈ G, c = 'B') :
    ∃ g, evalState p G = some g ∧ g.children ≤ 1 := by
  have hlen : 0 < G.length := List.length_pos.mpr hne
  have hget : G[0]? = some 'B' := by
    rw [List.getElem?_eq_getElem hlen]
    exact congrArg some (hB _ (List.getElem_mem hlen))
  refine ⟨{ children := 0, energy := 10 - 25 - (1 + (1 : ℚ) / 40) ^ 2,
            foundFood := false, size := 1, threat := 1 }, ?_, Nat.zero_le 1⟩
  unfold evalState
  rw [show (1000 : ℕ) = 999 + 1 from rfl, evalLoop,
      stepIter_B_initState p G 0 hget]

/-- Witness for C7 at the genome "B". -/
theorem all_reproduce_children_le_one_wit :
    (['B'] : List Char) ≠ [] ∧ (∀ c ∈ (['B'] : List Char), c = 'B') ∧
    ∃ g, evalState powStub ['B'] = some g ∧ g.children ≤ 1 :=
  ⟨by decide, by decide,
   all_reproduce_children_le_one powStub ['B'] (by decide) (by decide)⟩

set_option maxRecDepth 10000 in
/-- C8 counterexample: evaluating the genome "AB" under the simplest variant
returns fitness 999/1000, not the claimed 1.0 — on iteration 2 the organism
still has energy 9, which exceeds this variant's reproduction threshold 5, so
one child is spawned. -/
theorem simple_AB_cex :
    Evaluate2 ['A', 'B'] = some (999 / 1000) ∧ (999 / 1000 : ℚ) ≠ 1 := by
  constructor
  · with_unfolding_all decide
  · norm_num

set_option maxRecDepth 10000 in
/-- C8 (amended): evaluating the genome "AB" under the simplest variant gives
exactly one reproduction (iteration 2: energy 9 > threshold 5) before energy
decays to -4 and the organism dies, so the returned fitness is 0.999. -/
theorem simple_AB_run :
    evalState2 ['A', 'B'] =
      some { children := 1, energy := -4, foundFood := false } ∧
    Evaluate2 ['A', 'B'] = some (999 / 1000) := by
  constructor <;> with_unfolding_all decide

/-- C9 counterexample: on the empty genome the canonical `Evaluate` does not
return a fitness — the first iteration's `G[0]` access is out of range, which
panics in Go (modelled by `none`). -/
theorem evaluate_empty_faults : Evaluate powStub [] = none := by decide

/-- C9 (amended): on every nonempty genome the canonical `Evaluate` is total:
it returns a fitness value and cannot fail — the instruction pointer always
stays within bounds and the loop is bounded by 1000 steps. -/
theorem evaluate_total_nonempty (p : ℚ → ℚ) (G : List Char) (hne : G ≠ []) :
    ∃ f, Evaluate p G = some f := by
  have hlen : 0 < G.length := List.length_pos.mpr hne
  obtain ⟨g', hg'⟩ := evalLoop_total p G hlen 1000 0 initState hlen
  refine ⟨1 - (g'.children : ℚ) / 1000, ?_⟩
  unfold Evaluate evalState
  rw [hg']
  rfl

/-- Witness for C9's amended statement at the genome "A". -/
theorem evaluate_total_nonempty_wit :
    (['A'] : List Char) ≠ [] ∧ ∃ f, Evaluate powStub ['A'] = some f :=
  ⟨by decide, evaluate_total_nonempty powStub ['A'] (by decide)⟩

theorem execGene_unknown (p : ℚ → ℚ) (g : GenomeState) (c : Char)
    (h : c ∉ corpus) : ∀ i, execGene p c g i = (g, i) := by
  intro i
  unfold execGene
  split <;> simp_all [corpus]

theorem foodDecay_unknown (c : Char) (g : GenomeState) (h : c ∉ corpus) :
    foodDecay c g = { g with foundFood := false } := by
  unfold foodDecay
  rw [if_pos]
  refine ⟨?_, ?_, ?_, ?_⟩ <;> (intro e; exact h (by rw [e]; decide))

/-- C10 (amended): an out-of-alphabet symbol does not crash the evaluator:
its dispatch is a no-op on both state and pointer (the switch's default
branch only logs). But the step does not behave like a no-op `A` step: the
food decay and the metabolic decay still apply, since the decay guards list
only `C`, `A`, `H`, `I` — so the state after the step has strictly lower
energy, while an `A` step leaves the state untouched. -/
theorem unknown_symbol_behavior (p : ℚ → ℚ) (g : GenomeState) (c : Char)
    (h : c ∉ corpus) :
    (∀ i, execGene p c g i = (g, i)) ∧
    stepState p c g = metabolicDecay c { g with foundFood := false } ∧
    stepState p 'A' g = g ∧
    (stepState p c g).energy < g.energy ∧
    stepState p c g ≠ stepState p 'A' g := by
  have hexec := execGene_unknown p g c h
  have hstep : stepState p c g = metabolicDecay c { g with foundFood := false } := by
    unfold stepState
    rw [hexec 0]
    dsimp only
    rw [foodDecay_unknown c g h]
  have hA : stepState p 'A' g = g := rfl
  have hcond : c ≠ 'A' ∧ c ≠ 'H' ∧ c ≠ 'I' := by
    refine ⟨?_, ?_, ?_⟩ <;> (intro e; exact h (by rw [e]; decide))
  have henergy : (stepState p c g).energy < g.energy := by
    rw [hstep]
    unfold metabolicDecay
    rw [if_pos hcond]
    dsimp only
    have hsq : (0 : ℚ) < (1 + (g.size : ℚ) / 40) ^ 2 := by positivity
    have hsz : (0 : ℚ) ≤ (g.size : ℚ) := Nat.cast_nonneg _
    split
    · next hgt => dsimp only; linarith
    · dsimp only; linarith
  refine ⟨hexec, hstep, hA, henergy, ?_⟩
  intro e
  rw [hA] at e
  rw [e] at henergy
  exact lt_irrefl _ henergy

/-- C10 counterexample: one step on the out-of-alphabet symbol 'Z' from the
fresh organism does not change the state the way a no-op step does — the
no-op step leaves the state untouched while the 'Z' step applies decay. -/
theorem unknown_symbol_cex :
    stepState powStub 'Z' initState ≠ stepState powStub 'A' initState := by
  with_unfolding_all decide

/-- Witness for C10's amended statement at the symbol 'Z' and the fresh
organism. -/
theorem unknown_symbol_behavior_wit :
    'Z' ∉ corpus ∧
    ((∀ i, execGene powStub 'Z' initState i = (initState, i)) ∧
     stepState powStub 'Z' initState =
       metabolicDecay 'Z' { initState with foundFood := false } ∧
     stepState powStub 'A' initState = initState ∧
     (stepState powStub 'Z' initState).energy < initState.energy ∧
     stepState powStub 'Z' initState ≠ stepState powStub 'A' initState) :=
  ⟨by decide, unknown_symbol_behavior powStub initState 'Z' (by decide)⟩
